import Mathlib

/-!
Verification of the `courses` app of the E-Learning-Platform repository.

The Django models, the custom `OrderField`, and the class-based views of
`src/courses/` are shallowly embedded: database tables become lists of
records, querysets become list filters, and each view's `post`/`get`
handler becomes a total function from a database state (plus request
parameters) to a new state and an HTTP result.  Primary keys and users
are natural numbers; character/text columns that no claim touches are
elided except for a representative `title` column where a claim needs to
observe that a row changed.
-/

set_option autoImplicit false

namespace Courses

/-- A row of the `Course` table (`models.py`): `owner` is the instructor's
user id, `title` stands for the editable columns
(`subject`, `title`, `slug`, `overview`). -/
structure Course where
  id : Nat
  owner : Nat
  title : String
  deriving DecidableEq, Repr

/-- A row of the `Module` table (`models.py`): `course` is the owning
Course id, `order` the value of the `OrderField`. -/
structure Module where
  id : Nat
  course : Nat
  order : Nat
  deriving DecidableEq, Repr

/-- A row of the `Content` table (`models.py`): the polymorphic link is
the pair (`content_type`, `object_id`), `module` the owning Module id,
`order` the value of the `OrderField`. -/
structure Content where
  id : Nat
  module : Nat
  content_type : String
  object_id : Nat
  order : Nat
  deriving DecidableEq, Repr

/-- A row of one of the concrete item tables (`Text`/`File`/`Image`/`Video`
in `models.py`): `itemType` names the table, `owner`/`title` come from
`ItemBase`, `title` also standing for the type-specific payload column. -/
structure Item where
  id : Nat
  itemType : String
  owner : Nat
  title : String
  deriving DecidableEq, Repr

/-- The relational store: one list of rows per table. -/
structure DB where
  courses : List Course
  modules : List Module
  contents : List Content
  items : List Item
  deriving DecidableEq, Repr

/-! ## OrderField (`fields.py`)

`OrderField.pre_save` works the same for `Module` (scoped by `course`)
and `Content` (scoped by `module`), so it is embedded once over rows
projected to `(scope field value, order)` pairs. -/

/-- Embeds `qs.latest(self.attname)`: the row of the queryset with the
greatest `order` value (`none` embeds the `ObjectDoesNotExist` case). -/
def latest_by_order : List (Nat × Nat) → Option (Nat × Nat)
  | [] => none
  | r :: rs =>
    match latest_by_order rs with
    | none => some r
    | some b => if b.2 ≤ r.2 then some r else some b

/-- Embeds `OrderField.pre_save` (`fields.py` lines 25-46): if the
instance's order is unset (`none`), filter all rows of the model by the
`for_fields` scope value, take `latest(order).order + 1`, or `0` when the
queryset is empty; otherwise return the caller-supplied value unchanged. -/
def pre_save (rows : List (Nat × Nat)) (scope : Nat) (current : Option Nat) : Nat :=
  match current with
  | none =>
    let qs := rows.filter (fun r => r.1 == scope)
    match latest_by_order qs with
    | some last_item => last_item.2 + 1
    | none => 0
  | some v => v

/-- The `(course, order)` pairs of all Module rows: the queryset
`Module.objects.all()` as seen by `OrderField(for_fields=[course])`. -/
def module_pairs (db : DB) : List (Nat × Nat) :=
  db.modules.map (fun m => (m.course, m.order))

/-- The `(module, order)` pairs of all Content rows: the queryset
`Content.objects.all()` as seen by `OrderField(for_fields=[module])`. -/
def content_pairs (db : DB) : List (Nat × Nat) :=
  db.contents.map (fun c => (c.module, c.order))

/-- The data a Module save starts from: `order = none` means the order
attribute is unset and `pre_save` must compute it. -/
structure ModuleForm where
  id : Nat
  course : Nat
  order : Option Nat
  deriving DecidableEq, Repr

/-- The data a Content save starts from. -/
structure ContentForm where
  id : Nat
  module : Nat
  content_type : String
  object_id : Nat
  order : Option Nat
  deriving DecidableEq, Repr

/-- Saving a Module row: `pre_save` fixes the order (mutating the
instance before the row is written), then the row is inserted. -/
def module_save (db : DB) (f : ModuleForm) : DB :=
  let v := pre_save (module_pairs db) f.course f.order
  { db with modules := db.modules ++ [⟨f.id, f.course, v⟩] }

/-- Saving a Content row: `pre_save` fixes the order (scoped by
`module`), then the row is inserted. -/
def content_save (db : DB) (f : ContentForm) : DB :=
  let v := pre_save (content_pairs db) f.module f.order
  { db with contents := db.contents ++ [⟨f.id, f.module, f.content_type, f.object_id, v⟩] }

/-! ### Basic facts about `latest_by_order` -/

theorem latest_by_order_eq_none {l : List (Nat × Nat)} :
    latest_by_order l = none ↔ l = [] := by
  cases l with
  | nil => simp [latest_by_order]
  | cons r rs =>
    simp only [latest_by_order]
    constructor
    · intro h
      cases hl : latest_by_order rs <;> simp [hl] at h
      split at h <;> simp_all
    · intro h
      exact absurd h (by simp)

theorem latest_by_order_spec : ∀ {l : List (Nat × Nat)} {r : Nat × Nat},
    latest_by_order l = some r → r ∈ l ∧ ∀ x ∈ l, x.2 ≤ r.2 := by
  intro l
  induction l with
  | nil => intro r h; simp [latest_by_order] at h
  | cons a as ih =>
    intro r h
    simp only [latest_by_order] at h
    cases hl : latest_by_order as with
    | none =>
      rw [hl] at h
      have : a = r := by simpa using h
      subst this
      have : as = [] := latest_by_order_eq_none.mp hl
      subst this
      simp
    | some b =>
      rw [hl] at h
      obtain ⟨hbmem, hbmax⟩ := ih hl
      by_cases hc : b.2 ≤ a.2
      · simp only [hc, if_pos] at h
        have : a = r := by simpa using h
        subst this
        refine ⟨by simp, ?_⟩
        intro x hx
        rcases List.mem_cons.mp hx with hx | hx
        · subst hx; exact le_refl _
        · exact le_trans (hbmax x hx) hc
      · have h2 : (if b.2 ≤ a.2 then some a else some b) = some r := h
        rw [if_neg hc] at h2
        have : b = r := by simpa using h2
        subst this
        refine ⟨List.mem_cons_of_mem _ hbmem, ?_⟩
        intro x hx
        rcases List.mem_cons.mp hx with hx | hx
        · subst hx; exact le_of_not_le hc
        · exact hbmax x hx

/-! ## Creation sequences (repeated saves without an explicit order) -/

/-- Creating Modules with the given ids, all in course `cid`, all with the
order attribute unset, one `module_save` after another. -/
def create_modules (db : DB) (cid : Nat) : List Nat → DB
  | [] => db
  | i :: is => create_modules (module_save db ⟨i, cid, none⟩) cid is

/-- Creating Content rows (given as `(id, content_type, object_id)`
triples), all in module `mid`, all with the order attribute unset. -/
def create_contents (db : DB) (mid : Nat) : List (Nat × String × Nat) → DB
  | [] => db
  | t :: ts => create_contents (content_save db ⟨t.1, mid, t.2.1, t.2.2, none⟩) mid ts

theorem module_pairs_filter (l : List Module) (cid : Nat) :
    (((l.map (fun m => (m.course, m.order))).filter (fun r => r.1 == cid)).map Prod.snd)
      = (l.filter (fun m => m.course == cid)).map Module.order := by
  induction l with
  | nil => rfl
  | cons m ms ih => cases h : (m.course == cid) <;> simp [List.filter_cons, h, ih]

theorem content_pairs_filter (l : List Content) (mid : Nat) :
    (((l.map (fun c => (c.module, c.order))).filter (fun r => r.1 == mid)).map Prod.snd)
      = (l.filter (fun c => c.module == mid)).map Content.order := by
  induction l with
  | nil => rfl
  | cons c cs ih => cases h : (c.module == mid) <;> simp [List.filter_cons, h, ih]

theorem pre_save_of_orders_range {rows : List (Nat × Nat)} {scope k : Nat}
    (h : (rows.filter (fun r => r.1 == scope)).map Prod.snd = List.range k) :
    pre_save rows scope none = k := by
  cases k with
  | zero =>
    have hnil : rows.filter (fun r => r.1 == scope) = [] :=
      List.map_eq_nil_iff.mp (h.trans List.range_zero)
    simp [pre_save, hnil, latest_by_order]
  | succ j =>
    cases hl : latest_by_order (rows.filter (fun r => r.1 == scope)) with
    | none =>
      have hnil := latest_by_order_eq_none.mp hl
      rw [hnil] at h
      simp [List.range_succ] at h
    | some r =>
      obtain ⟨hmem, hmax⟩ := latest_by_order_spec hl
      have hrle : r.2 ≤ j := by
        have hm : r.2 ∈ List.range (j + 1) := h ▸ List.mem_map_of_mem Prod.snd hmem
        exact Nat.lt_succ_iff.mp (List.mem_range.mp hm)
      have hjle : j ≤ r.2 := by
        have hj : (j : Nat) ∈ (rows.filter (fun r => r.1 == scope)).map Prod.snd := by
          rw [h]; exact List.mem_range.mpr (Nat.lt_succ_self j)
        obtain ⟨x, hx, hxj⟩ := List.mem_map.mp hj
        exact hxj ▸ hmax x hx
      have hr : r.2 = j := Nat.le_antisymm hrle hjle
      simp [pre_save, hl, hr]

theorem create_modules_orders {cid : Nat} : ∀ (ids : List Nat) (db : DB) (k : Nat),
    ((db.modules.filter (fun m => m.course == cid)).map Module.order) = List.range k →
    (((create_modules db cid ids).modules.filter (fun m => m.course == cid)).map Module.order)
      = List.range (k + ids.length) := by
  intro ids
  induction ids with
  | nil => intro db k h; simpa using h
  | cons i is ih =>
    intro db k h
    have hpair : ((module_pairs db).filter (fun r => r.1 == cid)).map Prod.snd = List.range k := by
      rw [module_pairs, module_pairs_filter]; exact h
    have hv : pre_save (module_pairs db) cid none = k := pre_save_of_orders_range hpair
    have hstep : (((module_save db ⟨i, cid, none⟩).modules.filter
        (fun m => m.course == cid)).map Module.order) = List.range (k + 1) := by
      simp only [module_save, hv, List.filter_append, List.map_append, h]
      simp [List.range_succ]
    have hrec := ih (module_save db ⟨i, cid, none⟩) (k + 1) hstep
    simp only [create_modules]
    rw [hrec]
    congr 1
    simp only [List.length_cons]
    omega

theorem create_contents_orders {mid : Nat} : ∀ (ts : List (Nat × String × Nat)) (db : DB) (k : Nat),
    ((db.contents.filter (fun c => c.module == mid)).map Content.order) = List.range k →
    (((create_contents db mid ts).contents.filter (fun c => c.module == mid)).map Content.order)
      = List.range (k + ts.length) := by
  intro ts
  induction ts with
  | nil => intro db k h; simpa using h
  | cons t ts ih =>
    intro db k h
    have hpair : ((content_pairs db).filter (fun r => r.1 == mid)).map Prod.snd = List.range k := by
      rw [content_pairs, content_pairs_filter]; exact h
    have hv : pre_save (content_pairs db) mid none = k := pre_save_of_orders_range hpair
    have hstep : (((content_save db ⟨t.1, mid, t.2.1, t.2.2, none⟩).contents.filter
        (fun c => c.module == mid)).map Content.order) = List.range (k + 1) := by
      simp only [content_save, hv, List.filter_append, List.map_append, h]
      simp [List.range_succ]
    have hrec := ih (content_save db ⟨t.1, mid, t.2.1, t.2.2, none⟩) (k + 1) hstep
    simp only [create_contents]
    rw [hrec]
    congr 1
    simp only [List.length_cons]
    omega

/-! ## Claim C1 -/

/-- C1: on a Module or Content save whose order attribute is unset,
`OrderField.pre_save` assigns 1 + the maximum order over rows of the same
model sharing the instance's scoping-field value (`course` for Module,
`module` for Content), or 0 if no such row exists, and the computed value
is what gets written; when the order attribute is set (any value,
including 0), the caller-supplied value is used unchanged. -/
theorem order_field_pre_save_spec :
    (∀ (rows : List (Nat × Nat)) (scope v : Nat), pre_save rows scope (some v) = v) ∧
    (∀ (rows : List (Nat × Nat)) (scope : Nat),
      rows.filter (fun r => r.1 == scope) = [] → pre_save rows scope none = 0) ∧
    (∀ (rows : List (Nat × Nat)) (scope : Nat),
      rows.filter (fun r => r.1 == scope) ≠ [] →
      ∃ m, m ∈ (rows.filter (fun r => r.1 == scope)).map Prod.snd ∧
        (∀ o ∈ (rows.filter (fun r => r.1 == scope)).map Prod.snd, o ≤ m) ∧
        pre_save rows scope none = m + 1) ∧
    (∀ (db : DB) (f : ModuleForm), (module_save db f).modules
      = db.modules ++ [⟨f.id, f.course, pre_save (module_pairs db) f.course f.order⟩]) ∧
    (∀ (db : DB) (f : ContentForm), (content_save db f).contents
      = db.contents ++ [⟨f.id, f.module, f.content_type, f.object_id,
          pre_save (content_pairs db) f.module f.order⟩]) := by
  refine ⟨fun _ _ _ => rfl, ?_, ?_, fun _ _ => rfl, fun _ _ => rfl⟩
  · intro rows scope h
    simp [pre_save, h, latest_by_order]
  · intro rows scope h
    cases hl : latest_by_order (rows.filter (fun r => r.1 == scope)) with
    | none => exact absurd (latest_by_order_eq_none.mp hl) h
    | some r =>
      obtain ⟨hmem, hmax⟩ := latest_by_order_spec hl
      refine ⟨r.2, List.mem_map_of_mem Prod.snd hmem, ?_, ?_⟩
      · intro o ho
        obtain ⟨x, hx, hxo⟩ := List.mem_map.mp ho
        exact hxo ▸ hmax x hx
      · simp [pre_save, hl]

/-- Witness for C1 at concrete inputs. -/
theorem order_field_pre_save_spec_witness :
    pre_save [(1, 0), (2, 5)] 1 (some 7) = 7 ∧
    pre_save [(2, 5)] 1 none = 0 ∧
    (∃ m, m ∈ (([((1 : Nat), (3 : Nat)), (1, 1)]).filter (fun r => r.1 == 1)).map Prod.snd ∧
      (∀ o ∈ (([((1 : Nat), (3 : Nat)), (1, 1)]).filter (fun r => r.1 == 1)).map Prod.snd, o ≤ m) ∧
      pre_save [(1, 3), (1, 1)] 1 none = m + 1) :=
  ⟨order_field_pre_save_spec.1 [(1, 0), (2, 5)] 1 7,
   order_field_pre_save_spec.2.1 [(2, 5)] 1 (by decide),
   order_field_pre_save_spec.2.2.1 [(1, 3), (1, 1)] 1 (by decide)⟩

/-! ## Claim C4 -/

/-- C4: starting from a database holding no Module of course `cid`,
creating `n` Modules in that course with the order attribute unset
assigns orders exactly `0, 1, ..., n-1` in creation sequence; likewise
for Content rows created in one Module. -/
theorem sequential_creation_orders :
    (∀ (db : DB) (cid : Nat) (ids : List Nat),
      db.modules.filter (fun m => m.course == cid) = [] →
      (((create_modules db cid ids).modules.filter (fun m => m.course == cid)).map Module.order)
        = List.range ids.length) ∧
    (∀ (db : DB) (mid : Nat) (ts : List (Nat × String × Nat)),
      db.contents.filter (fun c => c.module == mid) = [] →
      (((create_contents db mid ts).contents.filter (fun c => c.module == mid)).map Content.order)
        = List.range ts.length) := by
  constructor
  · intro db cid ids h
    have := create_modules_orders ids db 0 (by rw [h]; rfl)
    simpa using this
  · intro db mid ts h
    have := create_contents_orders ts db 0 (by rw [h]; rfl)
    simpa using this

/-- Witness for C4: three Modules then two Contents created in an empty
database get orders 0,1,2 and 0,1 respectively. -/
theorem sequential_creation_orders_witness :
    (((create_modules ⟨[], [], [], []⟩ 1 [10, 11, 12]).modules.filter
        (fun m => m.course == 1)).map Module.order) = List.range 3 ∧
    (((create_contents ⟨[], [], [], []⟩ 4 [(20, "text", 7), (21, "video", 8)]).contents.filter
        (fun c => c.module == 4)).map Content.order) = List.range 2 :=
  ⟨sequential_creation_orders.1 ⟨[], [], [], []⟩ 1 [10, 11, 12] (by decide),
   sequential_creation_orders.2 ⟨[], [], [], []⟩ 4 [(20, "text", 7), (21, "video", 8)] (by rfl)⟩

/-! ## Views (`views.py`): shared plumbing -/

/-- The JSON body `{'saved': 'OK'}` returned by the reorder endpoints. -/
structure JsonAck where
  saved : String
  deriving DecidableEq, Repr

/-- The HTTP outcome of a view: a redirect (url name plus argument), a
rendered template (form redisplay), a 404, or an unhandled exception. -/
inductive HttpResult where
  | redirect (name : String) (arg : Nat)
  | render
  | notFound
  | serverError
  deriving DecidableEq, Repr

/-- The owner of the Course row with the given id, if that row exists. -/
def course_owner (db : DB) (cid : Nat) : Option Nat :=
  (db.courses.find? (fun c => c.id == cid)).map Course.owner

/-- The queryset join condition `course__owner=user` on a Module row. -/
def module_owned_by (db : DB) (m : Module) (user : Nat) : Bool :=
  match course_owner db m.course with
  | some o => o == user
  | none => false

/-- The queryset join condition `module__course__owner=user` on a Content row. -/
def content_owned_by (db : DB) (c : Content) (user : Nat) : Bool :=
  match db.modules.find? (fun m => m.id == c.module) with
  | some m => module_owned_by db m user
  | none => false

/-! ## Reorder endpoints (`ModuleOrderView` / `ContentOrderView`) -/

/-- One loop iteration of `ModuleOrderView.post`:
`Module.objects.filter(id=id, course__owner=request.user).update(order=order)`. -/
def module_order_update (db : DB) (user id ord : Nat) : DB :=
  { db with modules := db.modules.map (fun m =>
      if m.id == id && module_owned_by db m user then { m with order := ord } else m) }

/-- One loop iteration of `ContentOrderView.post`:
`Content.objects.filter(id=id, module__course__owner=request.user).update(order=order)`. -/
def content_order_update (db : DB) (user id ord : Nat) : DB :=
  { db with contents := db.contents.map (fun c =>
      if c.id == id && content_owned_by db c user then { c with order := ord } else c) }

/-- Embeds `ModuleOrderView.post`: one ownership-filtered update per
`(id, order)` entry of the JSON body, then the fixed acknowledgement. -/
def module_order_view_post (db : DB) (user : Nat) (body : List (Nat × Nat)) : DB × JsonAck :=
  (body.foldl (fun d p => module_order_update d user p.1 p.2) db, ⟨"OK"⟩)

/-- Embeds `ContentOrderView.post`. -/
def content_order_view_post (db : DB) (user : Nat) (body : List (Nat × Nat)) : DB × JsonAck :=
  (body.foldl (fun d p => content_order_update d user p.1 p.2) db, ⟨"OK"⟩)

section BatchUpdate

variable {α : Type} (owned : α → Bool) (getId : α → Nat) (setOrd : α → Nat → α)

/-- The effect of one body entry on one row, as seen by a single row. -/
def batch_row_step (m : α) (p : Nat × Nat) : α :=
  if getId m == p.1 && owned m then setOrd m p.2 else m

theorem batch_row_fold_skip :
    ∀ (body : List (Nat × Nat)) (m : α),
      (∀ p ∈ body, ¬(getId m = p.1 ∧ owned m = true)) →
      body.foldl (batch_row_step owned getId setOrd) m = m := by
  intro body
  induction body with
  | nil => intro m _; rfl
  | cons p ps ih =>
    intro m h
    have hp : ¬(getId m = p.1 ∧ owned m = true) := h p (by simp)
    have hstep : batch_row_step owned getId setOrd m p = m := by
      unfold batch_row_step
      have : (getId m == p.1 && owned m) = false := by
        cases hi : (getId m == p.1) with
        | false => simp
        | true =>
          cases ho : owned m with
          | false => simp
          | true => exact absurd ⟨by simpa using hi, ho⟩ hp
      simp [this]
    simp only [List.foldl_cons, hstep]
    exact ih m (fun q hq => h q (by simp [hq]))

theorem batch_row_fold_hit (hid : ∀ m o, getId (setOrd m o) = getId m) :
    ∀ (body : List (Nat × Nat)), (body.map Prod.fst).Nodup →
      ∀ (i o : Nat), (i, o) ∈ body → ∀ (m : α), getId m = i → owned m = true →
      body.foldl (batch_row_step owned getId setOrd) m = setOrd m o := by
  intro body
  induction body with
  | nil => intro _ i o hmem; simp at hmem
  | cons p ps ih =>
    intro hnd i o hmem m hm how
    rcases List.mem_cons.mp hmem with hp | hp
    · subst hp
      have hstep : batch_row_step owned getId setOrd m (i, o) = setOrd m o := by
        unfold batch_row_step
        simp [hm, how]
      simp only [List.foldl_cons, hstep]
      apply batch_row_fold_skip
      intro q hq hcontra
      have hq1 : q.1 ∈ ps.map Prod.fst := List.mem_map_of_mem Prod.fst hq
      have : getId (setOrd m o) = i := by rw [hid]; exact hm
      rw [this] at hcontra
      have hi : i ∈ ps.map Prod.fst := hcontra.1 ▸ hq1
      exact (List.nodup_cons.mp (by simpa using hnd)).1 hi
    · have hne : p.1 ≠ i := by
        intro he
        have : i ∈ ps.map Prod.fst := by
          have := List.mem_map_of_mem Prod.fst hp
          simpa using this
        exact (List.nodup_cons.mp (by simpa using hnd)).1 (he ▸ this)
      have hstep : batch_row_step owned getId setOrd m p = m := by
        unfold batch_row_step
        have : (getId m == p.1) = false := by
          simp [hm]
          exact fun he => hne he.symm
        simp [this]
      simp only [List.foldl_cons, hstep]
      exact ih (List.nodup_cons.mp (by simpa using hnd)).2 i o hp m hm how

end BatchUpdate

theorem module_order_fold_modules (user : Nat) : ∀ (body : List (Nat × Nat)) (db : DB),
    (body.foldl (fun d p => module_order_update d user p.1 p.2) db).modules
      = db.modules.map (fun m => body.foldl
          (batch_row_step (fun x => module_owned_by db x user) Module.id
            (fun x o => { x with order := o })) m) := by
  intro body
  induction body with
  | nil => intro db; simp
  | cons p ps ih =>
    intro db
    simp only [List.foldl_cons]
    rw [ih (module_order_update db user p.1 p.2)]
    rw [show (module_order_update db user p.1 p.2).modules
        = db.modules.map (fun m =>
            batch_row_step (fun x => module_owned_by db x user) Module.id
              (fun x o => { x with order := o }) m p) from rfl]
    rw [List.map_map]
    rfl

theorem content_order_fold_contents (user : Nat) : ∀ (body : List (Nat × Nat)) (db : DB),
    (body.foldl (fun d p => content_order_update d user p.1 p.2) db).contents
      = db.contents.map (fun c => body.foldl
          (batch_row_step (fun x => content_owned_by db x user) Content.id
            (fun x o => { x with order := o })) c) := by
  intro body
  induction body with
  | nil => intro db; simp
  | cons p ps ih =>
    intro db
    simp only [List.foldl_cons]
    rw [ih (content_order_update db user p.1 p.2)]
    rw [show (content_order_update db user p.1 p.2).contents
        = db.contents.map (fun c =>
            batch_row_step (fun x => content_owned_by db x user) Content.id
              (fun x o => { x with order := o }) c p) from rfl]
    rw [List.map_map]
    rfl

/-! ## Claim C3 -/

/-- C3: each `(id, order)` entry of a reorder request updates the order
of the row matching both the id and the ownership-chain filter
(`course__owner` for Module, `module__course__owner` for Content) to the
given value; a row matched by no entry, or not owned by the requester, is
left unchanged; the response is always the fixed body `saved = OK`. -/
theorem reorder_endpoints_spec :
    (∀ (db : DB) (user : Nat) (body : List (Nat × Nat)),
      (module_order_view_post db user body).2 = ⟨"OK"⟩ ∧
      ((body.map Prod.fst).Nodup →
        ∀ m ∈ db.modules,
          (∀ i o, (i, o) ∈ body → m.id = i → module_owned_by db m user = true →
            { m with order := o } ∈ (module_order_view_post db user body).1.modules) ∧
          ((∀ p ∈ body, ¬(m.id = p.1 ∧ module_owned_by db m user = true)) →
            m ∈ (module_order_view_post db user body).1.modules))) ∧
    (∀ (db : DB) (user : Nat) (body : List (Nat × Nat)),
      (content_order_view_post db user body).2 = ⟨"OK"⟩ ∧
      ((body.map Prod.fst).Nodup →
        ∀ c ∈ db.contents,
          (∀ i o, (i, o) ∈ body → c.id = i → content_owned_by db c user = true →
            { c with order := o } ∈ (content_order_view_post db user body).1.contents) ∧
          ((∀ p ∈ body, ¬(c.id = p.1 ∧ content_owned_by db c user = true)) →
            c ∈ (content_order_view_post db user body).1.contents))) := by
  constructor
  · intro db user body
    refine ⟨rfl, fun hnd m hm => ⟨?_, ?_⟩⟩
    · intro i o hio hmi how
      show _ ∈ (body.foldl (fun d p => module_order_update d user p.1 p.2) db).modules
      rw [module_order_fold_modules user body db]
      have hfold := batch_row_fold_hit (fun x => module_owned_by db x user) Module.id
        (fun x o => { x with order := o }) (fun _ _ => rfl) body hnd i o hio m hmi how
      have hmem := List.mem_map_of_mem (fun x => body.foldl
        (batch_row_step (fun x => module_owned_by db x user) Module.id
          (fun x o => { x with order := o })) x) hm
      simpa only [hfold] using hmem
    · intro hskip
      show _ ∈ (body.foldl (fun d p => module_order_update d user p.1 p.2) db).modules
      rw [module_order_fold_modules user body db]
      have hfold := batch_row_fold_skip (fun x => module_owned_by db x user) Module.id
        (fun x o => { x with order := o }) body m hskip
      exact hfold ▸ List.mem_map_of_mem _ hm
  · intro db user body
    refine ⟨rfl, fun hnd c hc => ⟨?_, ?_⟩⟩
    · intro i o hio hci how
      show _ ∈ (body.foldl (fun d p => content_order_update d user p.1 p.2) db).contents
      rw [content_order_fold_contents user body db]
      have hfold := batch_row_fold_hit (fun x => content_owned_by db x user) Content.id
        (fun x o => { x with order := o }) (fun _ _ => rfl) body hnd i o hio c hci how
      have hmem := List.mem_map_of_mem (fun x => body.foldl
        (batch_row_step (fun x => content_owned_by db x user) Content.id
          (fun x o => { x with order := o })) x) hc
      simpa only [hfold] using hmem
    · intro hskip
      show _ ∈ (body.foldl (fun d p => content_order_update d user p.1 p.2) db).contents
      rw [content_order_fold_contents user body db]
      have hfold := batch_row_fold_skip (fun x => content_owned_by db x user) Content.id
        (fun x o => { x with order := o }) body c hskip
      exact hfold ▸ List.mem_map_of_mem _ hc

/-- Witness for C3: user 1 owns course 1; reordering module 5 to order 3
and content 9 to order 4 takes effect, and the acknowledgement is fixed. -/
theorem reorder_endpoints_spec_witness :
    (module_order_view_post ⟨[⟨1, 1, "c"⟩], [⟨5, 1, 0⟩], [⟨9, 5, "text", 7, 0⟩], []⟩
        1 [(5, 3)]).2 = ⟨"OK"⟩ ∧
    (⟨5, 1, 3⟩ : Module) ∈ (module_order_view_post ⟨[⟨1, 1, "c"⟩], [⟨5, 1, 0⟩],
        [⟨9, 5, "text", 7, 0⟩], []⟩ 1 [(5, 3)]).1.modules ∧
    (⟨9, 5, "text", 7, 4⟩ : Content) ∈ (content_order_view_post ⟨[⟨1, 1, "c"⟩], [⟨5, 1, 0⟩],
        [⟨9, 5, "text", 7, 0⟩], []⟩ 1 [(9, 4)]).1.contents :=
  ⟨(reorder_endpoints_spec.1 ⟨[⟨1, 1, "c"⟩], [⟨5, 1, 0⟩], [⟨9, 5, "text", 7, 0⟩], []⟩
      1 [(5, 3)]).1,
   ((reorder_endpoints_spec.1 ⟨[⟨1, 1, "c"⟩], [⟨5, 1, 0⟩], [⟨9, 5, "text", 7, 0⟩], []⟩
      1 [(5, 3)]).2 (by decide) ⟨5, 1, 0⟩ (by decide)).1 5 3 (by decide) rfl (by decide),
   ((reorder_endpoints_spec.2 ⟨[⟨1, 1, "c"⟩], [⟨5, 1, 0⟩], [⟨9, 5, "text", 7, 0⟩], []⟩
      1 [(9, 4)]).2 (by decide) ⟨9, 5, "text", 7, 0⟩ (by decide)).1 9 4 (by decide) rfl (by decide)⟩

/-! ## Course CRUD views (`OwnerMixin` and its subclasses) -/

/-- Embeds `OwnerMixin.get_queryset`: the Course queryset filtered by
`owner=request.user`. -/
def owner_queryset (db : DB) (user : Nat) : List Course :=
  db.courses.filter (fun c => c.owner == user)

/-- Embeds `ManageCourseListView`: lists only the requester's own courses. -/
def manage_course_list_view (db : DB) (user : Nat) : List Course :=
  owner_queryset db user

/-- The single-object lookup of `CourseUpdateView`/`CourseDeleteView`:
the framework fetches the pk inside the owner-filtered queryset and
raises 404 when nothing matches. -/
def course_get_object (db : DB) (user pk : Nat) : Option Course :=
  (owner_queryset db user).find? (fun c => c.id == pk)

/-- Embeds `CourseUpdateView` with `OwnerEditMixin.form_valid`: on a pk
inside the owner-filtered queryset, save the edited columns (`title`
standing for them) with owner stamped to the requester, then redirect to
the course list; 404 otherwise. -/
def course_update_view (db : DB) (user pk : Nat) (newTitle : String) : DB × HttpResult :=
  match course_get_object db user pk with
  | none => (db, .notFound)
  | some _ =>
    ({ db with courses := db.courses.map (fun c =>
        if c.id == pk && c.owner == user then { c with title := newTitle, owner := user }
        else c) },
      .redirect "manage_course_list" 0)

/-- Embeds `CourseDeleteView`: on a pk inside the owner-filtered
queryset, delete the row (the ORM cascades the delete to the course's
Modules and their Contents) and redirect; 404 otherwise. -/
def course_delete_view (db : DB) (user pk : Nat) : DB × HttpResult :=
  match course_get_object db user pk with
  | none => (db, .notFound)
  | some c =>
    ({ db with
        courses := db.courses.filter (fun x => !(x.id == c.id)),
        modules := db.modules.filter (fun m => !(m.course == c.id)),
        contents := db.contents.filter (fun ct =>
          !(db.modules.any (fun m => m.id == ct.module && m.course == c.id))) },
      .redirect "manage_course_list" 0)

/-! ## Claim C7 -/

/-- C7: a Course not owned by the requesting user is absent from the
course list, and (when course ids are unique, as primary keys are) the
edit and delete views on its id answer 404 and leave the database
unchanged: every Course list/edit/delete queryset is owner-filtered. -/
theorem course_views_owner_scoped (db : DB) (user : Nat) (c : Course) (t : String)
    (hc : c ∈ db.courses) (hno : c.owner ≠ user) :
    c ∉ manage_course_list_view db user ∧
    ((db.courses.map Course.id).Nodup →
      course_get_object db user c.id = none ∧
      course_update_view db user c.id t = (db, .notFound) ∧
      course_delete_view db user c.id = (db, .notFound)) := by
  constructor
  · intro hmem
    have := (List.mem_filter.mp hmem).2
    exact hno (by simpa using this)
  · intro hnd
    have hget : course_get_object db user c.id = none := by
      rw [course_get_object, List.find?_eq_none]
      intro x hx
      have hxc : x ∈ db.courses := (List.mem_filter.mp hx).1
      have hxo : x.owner = user := by simpa using (List.mem_filter.mp hx).2
      intro hxid
      have hxid2 : x.id = c.id := by simpa using hxid
      have : x = c := List.inj_on_of_nodup_map hnd hxc hc hxid2
      exact hno (this ▸ hxo)
    refine ⟨hget, ?_, ?_⟩
    · rw [course_update_view, hget]
    · rw [course_delete_view, hget]

/-- Witness for C7: user 2 owns course 1; user 1 cannot see, edit or
delete it. -/
theorem course_views_owner_scoped_witness :
    (⟨1, 2, "c"⟩ : Course) ∉ manage_course_list_view ⟨[⟨1, 2, "c"⟩], [], [], []⟩ 1 ∧
    course_update_view ⟨[⟨1, 2, "c"⟩], [], [], []⟩ 1 1 "x"
      = (⟨[⟨1, 2, "c"⟩], [], [], []⟩, .notFound) ∧
    course_delete_view ⟨[⟨1, 2, "c"⟩], [], [], []⟩ 1 1
      = (⟨[⟨1, 2, "c"⟩], [], [], []⟩, .notFound) :=
  ⟨(course_views_owner_scoped ⟨[⟨1, 2, "c"⟩], [], [], []⟩ 1 ⟨1, 2, "c"⟩ "x"
      (by decide) (by decide)).1,
   ((course_views_owner_scoped ⟨[⟨1, 2, "c"⟩], [], [], []⟩ 1 ⟨1, 2, "c"⟩ "x"
      (by decide) (by decide)).2 (by decide)).2.1,
   ((course_views_owner_scoped ⟨[⟨1, 2, "c"⟩], [], [], []⟩ 1 ⟨1, 2, "c"⟩ "x"
      (by decide) (by decide)).2 (by decide)).2.2⟩

/-! ## Content delete view (`ContentDeleteView`) -/

/-- Embeds `ContentDeleteView.post`: fetch the Content by id scoped to
the requester's own courses (`module__course__owner`, 404 when nothing
matches), delete the referenced concrete item row first
(`content.item.delete()`), then the Content row itself, and redirect to
the owning module's content list. -/
def content_delete_view_post (db : DB) (user id : Nat) : DB × HttpResult :=
  match db.contents.find? (fun c => c.id == id && content_owned_by db c user) with
  | none => (db, .notFound)
  | some content =>
    let db1 := { db with items := db.items.filter (fun it =>
      !(it.itemType == content.content_type && it.id == content.object_id)) }
    let db2 := { db1 with contents := db1.contents.filter (fun c => !(c.id == content.id)) }
    (db2, .redirect "module_content_list" content.module)

/-! ## Claim C5 -/

/-- C5: deleting a Content id owned (via `module__course__owner`) by the
requester removes both the referenced concrete item row and the Content
association row — a subsequent fetch of either returns nothing — and
redirects to the owning module's content list; an absent or non-owned id
gives 404 and deletes nothing. -/
theorem content_delete_spec (db : DB) (user id : Nat) :
    (∀ content,
      db.contents.find? (fun c => c.id == id && content_owned_by db c user) = some content →
      (content_delete_view_post db user id).1.contents.find? (fun c => c.id == id) = none ∧
      (content_delete_view_post db user id).1.items.find? (fun it =>
        it.itemType == content.content_type && it.id == content.object_id) = none ∧
      (content_delete_view_post db user id).2 = .redirect "module_content_list" content.module) ∧
    (db.contents.find? (fun c => c.id == id && content_owned_by db c user) = none →
      content_delete_view_post db user id = (db, .notFound)) := by
  constructor
  · intro content h
    have hcid : content.id = id := by
      have := List.find?_some h
      simp only [Bool.and_eq_true, beq_iff_eq] at this
      exact this.1
    refine ⟨?_, ?_, ?_⟩
    · rw [show (content_delete_view_post db user id).1.contents
          = db.contents.filter (fun c => !(c.id == content.id)) from
        by simp [content_delete_view_post, h]]
      rw [List.find?_eq_none]
      intro x hx hxid
      have hxne := (List.mem_filter.mp hx).2
      simp only [Bool.not_eq_true', beq_eq_false_iff_ne] at hxne
      exact hxne (by rw [hcid]; simpa using hxid)
    · rw [show (content_delete_view_post db user id).1.items
          = db.items.filter (fun it =>
              !(it.itemType == content.content_type && it.id == content.object_id)) from
        by simp [content_delete_view_post, h]]
      rw [List.find?_eq_none]
      intro x hx hxp
      have hxne := (List.mem_filter.mp hx).2
      rw [hxp] at hxne
      simp at hxne
    · simp [content_delete_view_post, h]
  · intro h
    simp [content_delete_view_post, h]

/-- Witness for C5: user 1 owns course 1 / module 5 / content 9 backed by
text item 7; deleting content 9 removes both rows; user 2 gets 404. -/
theorem content_delete_spec_witness :
    (content_delete_view_post ⟨[⟨1, 1, "c"⟩], [⟨5, 1, 0⟩], [⟨9, 5, "text", 7, 0⟩],
        [⟨7, "text", 1, "t"⟩]⟩ 1 9).1.contents.find? (fun c => c.id == 9) = none ∧
    (content_delete_view_post ⟨[⟨1, 1, "c"⟩], [⟨5, 1, 0⟩], [⟨9, 5, "text", 7, 0⟩],
        [⟨7, "text", 1, "t"⟩]⟩ 1 9).1.items.find? (fun it =>
          it.itemType == "text" && it.id == 7) = none ∧
    content_delete_view_post ⟨[⟨1, 1, "c"⟩], [⟨5, 1, 0⟩], [⟨9, 5, "text", 7, 0⟩],
        [⟨7, "text", 1, "t"⟩]⟩ 2 9
      = (⟨[⟨1, 1, "c"⟩], [⟨5, 1, 0⟩], [⟨9, 5, "text", 7, 0⟩], [⟨7, "text", 1, "t"⟩]⟩,
          .notFound) :=
  ⟨((content_delete_spec ⟨[⟨1, 1, "c"⟩], [⟨5, 1, 0⟩], [⟨9, 5, "text", 7, 0⟩],
      [⟨7, "text", 1, "t"⟩]⟩ 1 9).1 ⟨9, 5, "text", 7, 0⟩ (by decide)).1,
   ((content_delete_spec ⟨[⟨1, 1, "c"⟩], [⟨5, 1, 0⟩], [⟨9, 5, "text", 7, 0⟩],
      [⟨7, "text", 1, "t"⟩]⟩ 1 9).1 ⟨9, 5, "text", 7, 0⟩ (by decide)).2.1,
   (content_delete_spec ⟨[⟨1, 1, "c"⟩], [⟨5, 1, 0⟩], [⟨9, 5, "text", 7, 0⟩],
      [⟨7, "text", 1, "t"⟩]⟩ 2 9).2 (by decide)⟩

/-! ## Content create/update view (`ContentCreateUpdateView`) -/

/-- Embeds `ContentCreateUpdateView.get_model`: only the four content
type names resolve to a model class; any other name yields `None`. -/
def get_model (model_name : String) : Option String :=
  if model_name == "text" || model_name == "video" || model_name == "image"
      || model_name == "file" then
    some model_name
  else
    none

/-- The columns of each concrete item model: the four `ItemBase` columns
plus the type-specific payload column (`models.py`). -/
def model_fields : String → List String
  | "text" => ["owner", "title", "created", "updated", "content"]
  | "file" => ["owner", "title", "created", "updated", "file"]
  | "image" => ["owner", "title", "created", "updated", "file"]
  | "video" => ["owner", "title", "created", "updated", "url"]
  | _ => []

/-- The `exclude` list `get_form` passes to `modelform_factory`. -/
def form_exclude : List String := ["owner", "order", "created", "updated"]

/-- The fields of the dynamically built model form: the model's columns
minus the exclude list. -/
def get_form_fields (tag : String) : List String :=
  (model_fields tag).filter (fun f => !(form_exclude.contains f))

/-- The submitted form data: `title` stands for the editable columns and
`valid` for the outcome of `form.is_valid()`. -/
structure ItemFormData where
  title : String
  valid : Bool
  deriving DecidableEq, Repr

/-- Embeds `ContentCreateUpdateView.dispatch` followed by `post`.

`dispatch` fetches the module scoped by `course__owner` (404 when
nothing matches) and resolves the model from the type name; with no
model resolved the request raises (`get_object_or_404(None, ...)` when
an id was given, otherwise `modelform_factory(None, ...)` inside
`get_form`), embedded as `serverError` with the database untouched.
With an id, the existing item is fetched scoped by `owner` (404).  On a
valid form the item is saved with `obj.owner = request.user`; only when
no id was given is a wrapping Content row created
(`Content.objects.create(module=self.module, item=obj)`, its order
unset, so `OrderField.pre_save` assigns it). -/
def content_create_update_post (db : DB) (user module_id : Nat) (model_name : String)
    (id : Option Nat) (form : ItemFormData) (new_item_id new_content_id : Nat) :
    DB × HttpResult :=
  match db.modules.find? (fun m => m.id == module_id && module_owned_by db m user) with
  | none => (db, .notFound)
  | some module_ =>
    match get_model model_name with
    | none => (db, .serverError)
    | some tag =>
      match id with
      | some oid =>
        match db.items.find? (fun it =>
            it.itemType == tag && it.id == oid && it.owner == user) with
        | none => (db, .notFound)
        | some _ =>
          if form.valid then
            ({ db with items := db.items.map (fun it =>
                if it.itemType == tag && it.id == oid then
                  { it with title := form.title, owner := user }
                else it) },
              .redirect "module_content_list" module_.id)
          else
            (db, .render)
      | none =>
        if form.valid then
          let db1 := { db with items := db.items ++ [⟨new_item_id, tag, user, form.title⟩] }
          let db2 := content_save db1 ⟨new_content_id, module_.id, tag, new_item_id, none⟩
          (db2, .redirect "module_content_list" module_.id)
        else
          (db, .render)

/-! ## Claim C6 -/

/-- C6: a content-type name outside the closed set text/video/image/file
resolves to no model, the request fails (404 or an unhandled exception,
never a redirect), and neither an item row nor a Content row is created:
the database is returned untouched. -/
theorem unknown_content_type_fails (name : String)
    (h : name ∉ (["text", "video", "image", "file"] : List String)) :
    get_model name = none ∧
    ∀ (db : DB) (user mid : Nat) (id : Option Nat) (form : ItemFormData) (ni nc : Nat),
      (content_create_update_post db user mid name id form ni nc).1 = db ∧
      ((content_create_update_post db user mid name id form ni nc).2 = .notFound ∨
       (content_create_update_post db user mid name id form ni nc).2 = .serverError) := by
  have h1 : name ≠ "text" := fun he => h (by simp [he])
  have h2 : name ≠ "video" := fun he => h (by simp [he])
  have h3 : name ≠ "image" := fun he => h (by simp [he])
  have h4 : name ≠ "file" := fun he => h (by simp [he])
  have hgm : get_model name = none := by simp [get_model, h1, h2, h3, h4]
  refine ⟨hgm, fun db user mid id form ni nc => ?_⟩
  cases hfind : db.modules.find? (fun m => m.id == mid && module_owned_by db m user) with
  | none => simp [content_create_update_post, hfind]
  | some m => simp [content_create_update_post, hfind, hgm]

/-- Witness for C6 at the unknown type name quiz. -/
theorem unknown_content_type_fails_witness :
    get_model "quiz" = none ∧
    (content_create_update_post ⟨[⟨1, 1, "c"⟩], [⟨5, 1, 0⟩], [], []⟩ 1 5 "quiz" none
      ⟨"t", true⟩ 7 9).1 = ⟨[⟨1, 1, "c"⟩], [⟨5, 1, 0⟩], [], []⟩ :=
  ⟨(unknown_content_type_fails "quiz" (by decide)).1,
   ((unknown_content_type_fails "quiz" (by decide)).2
      ⟨[⟨1, 1, "c"⟩], [⟨5, 1, 0⟩], [], []⟩ 1 5 none ⟨"t", true⟩ 7 9).1⟩

/-! ## Claim C8 -/

/-- C8: the dynamic form's exclude set is exactly owner/order/created/
updated (a form field is a model column not in that set); on a valid
submission the saved item carries the requester as owner; and a wrapping
Content row linking the module to the item is created exactly when no
existing item id was given. -/
theorem content_form_save_spec :
    form_exclude = ["owner", "order", "created", "updated"] ∧
    (∀ tag f, f ∈ get_form_fields tag ↔ (f ∈ model_fields tag ∧ f ∉ form_exclude)) ∧
    (∀ (db : DB) (user mid : Nat) (name : String) (form : ItemFormData) (ni nc : Nat)
        (module_ : Module) (tag : String),
      db.modules.find? (fun m => m.id == mid && module_owned_by db m user) = some module_ →
      get_model name = some tag →
      form.valid = true →
      ((content_create_update_post db user mid name none form ni nc).1.items
          = db.items ++ [⟨ni, tag, user, form.title⟩] ∧
        (∃ ord, (content_create_update_post db user mid name none form ni nc).1.contents
          = db.contents ++ [⟨nc, module_.id, tag, ni, ord⟩])) ∧
      (∀ oid it0,
        db.items.find? (fun it => it.itemType == tag && it.id == oid && it.owner == user)
          = some it0 →
        (content_create_update_post db user mid name (some oid) form ni nc).1.contents
          = db.contents ∧
        (∃ it ∈ (content_create_update_post db user mid name (some oid) form ni nc).1.items,
          it.itemType = tag ∧ it.id = oid ∧ it.owner = user ∧ it.title = form.title))) := by
  refine ⟨rfl, ?_, ?_⟩
  · intro tag f
    simp [get_form_fields, List.mem_filter]
  · intro db user mid name form ni nc module_ tag hm hg hv
    constructor
    · constructor
      · simp [content_create_update_post, hm, hg, hv, content_save]
      · refine ⟨pre_save (content_pairs { db with
          items := db.items ++ [⟨ni, tag, user, form.title⟩] }) module_.id none, ?_⟩
        simp [content_create_update_post, hm, hg, hv, content_save]
    · intro oid it0 hit
      have hpred := List.find?_some hit
      simp only [Bool.and_eq_true, beq_iff_eq] at hpred
      obtain ⟨⟨htag, hid⟩, _⟩ := hpred
      have hmem0 : it0 ∈ db.items := List.mem_of_find?_eq_some hit
      constructor
      · simp [content_create_update_post, hm, hg, hit, hv]
      · refine ⟨{ it0 with title := form.title, owner := user }, ?_, htag, hid, rfl, rfl⟩
        rw [show (content_create_update_post db user mid name (some oid) form ni nc).1.items
            = db.items.map (fun it =>
                if it.itemType == tag && it.id == oid then
                  { it with title := form.title, owner := user }
                else it) from by simp [content_create_update_post, hm, hg, hit, hv]]
        have := List.mem_map_of_mem (fun it =>
          if it.itemType == tag && it.id == oid then
            { it with title := form.title, owner := user }
          else it) hmem0
        simpa [htag, hid] using this

/-- Witness for C8: creating a text item in module 5 appends the item
owned by user 1 and one Content row; updating item 7 appends nothing. -/
theorem content_form_save_spec_witness :
    "title" ∈ get_form_fields "text" ∧ "owner" ∉ get_form_fields "text" ∧
    (content_create_update_post ⟨[⟨1, 1, "c"⟩], [⟨5, 1, 0⟩], [], []⟩ 1 5 "text" none
        ⟨"t", true⟩ 7 9).1.items = [⟨7, "text", 1, "t"⟩] ∧
    (∃ ord, (content_create_update_post ⟨[⟨1, 1, "c"⟩], [⟨5, 1, 0⟩], [], []⟩ 1 5 "text" none
        ⟨"t", true⟩ 7 9).1.contents = [⟨9, 5, "text", 7, ord⟩]) ∧
    (content_create_update_post ⟨[⟨1, 1, "c"⟩], [⟨5, 1, 0⟩], [⟨9, 5, "text", 7, 0⟩],
        [⟨7, "text", 1, "old"⟩]⟩ 1 5 "text" (some 7) ⟨"new", true⟩ 8 10).1.contents
      = [⟨9, 5, "text", 7, 0⟩] :=
  ⟨((content_form_save_spec.2.1 "text" "title").mpr (by decide)),
   (fun hmem => by
      have := (content_form_save_spec.2.1 "text" "owner").mp hmem
      exact this.2 (by decide)),
   (((content_form_save_spec.2.2 ⟨[⟨1, 1, "c"⟩], [⟨5, 1, 0⟩], [], []⟩ 1 5 "text"
      ⟨"t", true⟩ 7 9 ⟨5, 1, 0⟩ "text" (by decide) (by decide) rfl).1).1),
   (((content_form_save_spec.2.2 ⟨[⟨1, 1, "c"⟩], [⟨5, 1, 0⟩], [], []⟩ 1 5 "text"
      ⟨"t", true⟩ 7 9 ⟨5, 1, 0⟩ "text" (by decide) (by decide) rfl).1).2),
   (((content_form_save_spec.2.2 ⟨[⟨1, 1, "c"⟩], [⟨5, 1, 0⟩], [⟨9, 5, "text", 7, 0⟩],
      [⟨7, "text", 1, "old"⟩]⟩ 1 5 "text" ⟨"new", true⟩ 8 10 ⟨5, 1, 0⟩ "text"
      (by decide) (by decide) rfl).2 7 ⟨7, "text", 1, "old"⟩ (by decide)).1)⟩

/-! ## Claim C9 -/

/-- C9: a content update (an existing item id was given) changes only
the concrete item row: the Content association rows (module,
content_type, object_id, order), the Module rows and the Course rows are
all unchanged, no new Content row is created, items other than the
targeted one survive untouched, and the view redirects to the module's
content list. -/
theorem content_update_frame (db : DB) (user mid : Nat) (name : String)
    (form : ItemFormData) (ni nc oid : Nat) (module_ : Module) (tag : String)
    (it0 : Item)
    (hm : db.modules.find? (fun m => m.id == mid && module_owned_by db m user) = some module_)
    (hg : get_model name = some tag)
    (hv : form.valid = true)
    (hit : db.items.find? (fun it => it.itemType == tag && it.id == oid && it.owner == user)
      = some it0) :
    (content_create_update_post db user mid name (some oid) form ni nc).1.contents
      = db.contents ∧
    (content_create_update_post db user mid name (some oid) form ni nc).1.modules
      = db.modules ∧
    (content_create_update_post db user mid name (some oid) form ni nc).1.courses
      = db.courses ∧
    (∀ it ∈ db.items, ¬(it.itemType = tag ∧ it.id = oid) →
      it ∈ (content_create_update_post db user mid name (some oid) form ni nc).1.items) ∧
    (content_create_update_post db user mid name (some oid) form ni nc).2
      = .redirect "module_content_list" module_.id := by
  refine ⟨by simp [content_create_update_post, hm, hg, hit, hv],
          by simp [content_create_update_post, hm, hg, hit, hv],
          by simp [content_create_update_post, hm, hg, hit, hv], ?_,
          by simp [content_create_update_post, hm, hg, hit, hv]⟩
  intro it hmem hne
  rw [show (content_create_update_post db user mid name (some oid) form ni nc).1.items
      = db.items.map (fun it =>
          if it.itemType == tag && it.id == oid then
            { it with title := form.title, owner := user }
          else it) from by simp [content_create_update_post, hm, hg, hit, hv]]
  have hcond : (it.itemType == tag && it.id == oid) = false := by
    cases h1 : (it.itemType == tag) with
    | false => simp
    | true =>
      cases h2 : (it.id == oid) with
      | false => simp
      | true => exact absurd ⟨by simpa using h1, by simpa using h2⟩ hne
  have := List.mem_map_of_mem (fun it =>
    if it.itemType == tag && it.id == oid then
      { it with title := form.title, owner := user }
    else it) hmem
  simpa [hcond] using this

/-- Witness for C9: updating text item 7 leaves content row 9, module 5
and course 1 untouched and keeps the unrelated item 8. -/
theorem content_update_frame_witness :
    (content_create_update_post ⟨[⟨1, 1, "c"⟩], [⟨5, 1, 0⟩], [⟨9, 5, "text", 7, 0⟩],
        [⟨7, "text", 1, "old"⟩, ⟨8, "video", 1, "v"⟩]⟩ 1 5 "text" (some 7)
        ⟨"new", true⟩ 30 31).1.contents = [⟨9, 5, "text", 7, 0⟩] ∧
    (⟨8, "video", 1, "v"⟩ : Item) ∈ (content_create_update_post ⟨[⟨1, 1, "c"⟩], [⟨5, 1, 0⟩],
        [⟨9, 5, "text", 7, 0⟩], [⟨7, "text", 1, "old"⟩, ⟨8, "video", 1, "v"⟩]⟩ 1 5 "text"
        (some 7) ⟨"new", true⟩ 30 31).1.items :=
  ⟨(content_update_frame ⟨[⟨1, 1, "c"⟩], [⟨5, 1, 0⟩], [⟨9, 5, "text", 7, 0⟩],
      [⟨7, "text", 1, "old"⟩, ⟨8, "video", 1, "v"⟩]⟩ 1 5 "text" ⟨"new", true⟩ 30 31 7
      ⟨5, 1, 0⟩ "text" ⟨7, "text", 1, "old"⟩ (by decide) (by decide) rfl (by decide)).1,
   (content_update_frame ⟨[⟨1, 1, "c"⟩], [⟨5, 1, 0⟩], [⟨9, 5, "text", 7, 0⟩],
      [⟨7, "text", 1, "old"⟩, ⟨8, "video", 1, "v"⟩]⟩ 1 5 "text" ⟨"new", true⟩ 30 31 7
      ⟨5, 1, 0⟩ "text" ⟨7, "text", 1, "old"⟩ (by decide) (by decide) rfl
      (by decide)).2.2.2.1 ⟨8, "video", 1, "v"⟩ (by decide) (by decide)⟩

/-! ## URL routing (`urls.py`) -/

/-- One `path(...)` entry of `urlpatterns`: the route pattern, the view
class dispatched to, and the url name. -/
structure UrlPattern where
  route : String
  view : String
  name : String
  deriving DecidableEq, Repr

/-- Embeds `urlpatterns` (`urls.py` lines 4-34).  The file contains no
entry for `ModuleOrderView` at all, and the `ContentOrderView` entry
exists only as a commented-out line (line 32), so neither is part of the
list. -/
def urlpatterns : List UrlPattern := [
  ⟨"list/", "ManageCourseListView", "manage_course_list"⟩,
  ⟨"create/", "CourseCreateView", "course_create"⟩,
  ⟨"<pk>/edit/", "CourseUpdateView", "course_edit"⟩,
  ⟨"<pk>/delete/", "CourseDeleteView", "course_delete"⟩,
  ⟨"<pk>/module/", "CourseModuleUpdateView", "course_module_update"⟩,
  ⟨"module/<int:module_id>/content/<model_name>/create/", "ContentCreateUpdateView",
    "module_content_create"⟩,
  ⟨"module/<int:module_id>/content/<model_name>/<id>/", "ContentCreateUpdateView",
    "module_content_update"⟩,
  ⟨"content/<int:id>/delete/", "ContentDeleteView", "module_content_delete"⟩,
  ⟨"module/<int:module_id>/", "ModuleContentListView", "module_content_list"⟩]

/-! ## Claim C2 -/

/-- C2 counterexample: it is not the case that some entry of the route
table dispatches to `ModuleOrderView` and some entry dispatches to
`ContentOrderView` — in fact no entry names either view. -/
theorem reorder_views_not_routed :
    ¬((∃ p ∈ urlpatterns, p.view = "ModuleOrderView") ∧
      (∃ p ∈ urlpatterns, p.view = "ContentOrderView")) := by decide

/-- C2 amended: the route table dispatches to each of the eight other
view classes of `views.py`, but no entry dispatches to `ModuleOrderView`
or `ContentOrderView`: the two JSON reorder views are defined yet
unrouted. -/
theorem url_routing_views :
    (∀ v ∈ (["ManageCourseListView", "CourseCreateView", "CourseUpdateView",
        "CourseDeleteView", "CourseModuleUpdateView", "ContentCreateUpdateView",
        "ContentDeleteView", "ModuleContentListView"] : List String),
      ∃ p ∈ urlpatterns, p.view = v) ∧
    (∀ p ∈ urlpatterns, p.view ≠ "ModuleOrderView" ∧ p.view ≠ "ContentOrderView") := by
  decide

/-- Witness for the amended C2. -/
theorem url_routing_views_witness :
    (∃ p ∈ urlpatterns, p.view = "ContentDeleteView") ∧
    (⟨"list/", "ManageCourseListView", "manage_course_list"⟩ : UrlPattern).view
      ≠ "ModuleOrderView" :=
  ⟨url_routing_views.1 "ContentDeleteView" (by decide),
   (url_routing_views.2 ⟨"list/", "ManageCourseListView", "manage_course_list"⟩
      (by decide)).1⟩

/-! ## Claim C10 -/

/-- Deletion of a Module row: the framework removes the row and nothing
else — `OrderField` (`fields.py`) defines no delete hook, so no
renumbering of siblings happens anywhere. -/
def module_delete (db : DB) (id : Nat) : DB :=
  { db with modules := db.modules.filter (fun m => !(m.id == id)) }

/-- C10: deleting a Module (or Content) row leaves every remaining
sibling's order untouched; the next auto-assigned order is 1 + the
current scoped maximum (not the sibling count); concretely, after
creating orders 0,1,2 in a course, deleting the order-0 row and creating
a fourth module yields orders 1,2,3 — two siblings remained, the new row
got 3, and the dense 0..n-1 property fails for good. -/
theorem deletion_leaves_gap :
    (∀ (db : DB) (id : Nat) (m : Module), m ∈ db.modules → m.id ≠ id →
      m ∈ (module_delete db id).modules) ∧
    (∀ (db : DB) (user id : Nat) (content : Content),
      db.contents.find? (fun c => c.id == id && content_owned_by db c user) = some content →
      ∀ c ∈ db.contents, c.id ≠ content.id →
        c ∈ (content_delete_view_post db user id).1.contents) ∧
    (∀ (rows : List (Nat × Nat)) (scope : Nat) (r : Nat × Nat),
      r ∈ rows.filter (fun x => x.1 == scope) →
      (∀ x ∈ rows.filter (fun x => x.1 == scope), x.2 ≤ r.2) →
      pre_save rows scope none = r.2 + 1) ∧
    (((module_delete (create_modules ⟨[], [], [], []⟩ 1 [10, 11, 12]) 10).modules.filter
        (fun m => m.course == 1)).length = 2 ∧
      (((module_save (module_delete (create_modules ⟨[], [], [], []⟩ 1 [10, 11, 12]) 10)
        ⟨13, 1, none⟩).modules.filter (fun m => m.course == 1)).map Module.order) = [1, 2, 3] ∧
      ([1, 2, 3] : List Nat) ≠ List.range 3) := by
  refine ⟨?_, ?_, ?_, by decide, by decide, by decide⟩
  · intro db id m hm hne
    rw [module_delete]
    refine List.mem_filter.mpr ⟨hm, ?_⟩
    simpa using hne
  · intro db user id content hfind c hc hne
    rw [show (content_delete_view_post db user id).1.contents
        = db.contents.filter (fun c => !(c.id == content.id)) from
      by simp [content_delete_view_post, hfind]]
    refine List.mem_filter.mpr ⟨hc, ?_⟩
    simpa using hne
  · intro rows scope r hr hmax
    cases hl : latest_by_order (rows.filter (fun x => x.1 == scope)) with
    | none =>
      have := latest_by_order_eq_none.mp hl
      rw [this] at hr
      simp at hr
    | some b =>
      obtain ⟨hbmem, hbmax⟩ := latest_by_order_spec hl
      have h1 : b.2 ≤ r.2 := hmax b hbmem
      have h2 : r.2 ≤ b.2 := hbmax r hr
      have : b.2 = r.2 := Nat.le_antisymm h1 h2
      simp [pre_save, hl, this]

/-- Witness for C10: surviving module 11 keeps order 1, surviving
content 9 is untouched, and the next order after orders 1 and 2 is 3. -/
theorem deletion_leaves_gap_witness :
    (⟨11, 1, 1⟩ : Module) ∈ (module_delete ⟨[], [⟨10, 1, 0⟩, ⟨11, 1, 1⟩], [], []⟩ 10).modules ∧
    (⟨9, 5, "text", 7, 1⟩ : Content) ∈ (content_delete_view_post ⟨[⟨1, 1, "c"⟩], [⟨5, 1, 0⟩],
      [⟨8, 5, "text", 6, 0⟩, ⟨9, 5, "text", 7, 1⟩], []⟩ 1 8).1.contents ∧
    pre_save [(1, 1), (1, 2)] 1 none = 3 :=
  ⟨deletion_leaves_gap.1 ⟨[], [⟨10, 1, 0⟩, ⟨11, 1, 1⟩], [], []⟩ 10 ⟨11, 1, 1⟩
      (by decide) (by decide),
   deletion_leaves_gap.2.1 ⟨[⟨1, 1, "c"⟩], [⟨5, 1, 0⟩],
      [⟨8, 5, "text", 6, 0⟩, ⟨9, 5, "text", 7, 1⟩], []⟩ 1 8 ⟨8, 5, "text", 6, 0⟩
      (by decide) ⟨9, 5, "text", 7, 1⟩ (by decide) (by decide),
   deletion_leaves_gap.2.2.1 [(1, 1), (1, 2)] 1 (1, 2) (by decide) (by decide)⟩

end Courses
